import Mathlib

/-!
Verification of the Avilon real-time conversation orchestration pipeline.

Each section embeds one part of the source code as executable Lean
definitions and proves the specified properties about them:

* Crisis Filter            — `src/lib/utils/crisis-detector.ts`
* Session Controller       — chat route (`POST /api/chat`) and avatar route
* Turn Generator           — `generateResponse` in `src/lib/ai/agent.ts`
* Caption buffer           — `src/components/chat/pipecat-video-interface.tsx`
* Connection lifecycle     — module-level singleton in the same component
* Async clip renderer      — polling loops in `src/lib/avatar/lip-sync.ts`
* Audio buffer             — `AudioBuffer` class in `src/lib/avatar/streaming.ts`
-/

namespace Avilon

/-! ### Crisis Filter (src/lib/utils/crisis-detector.ts) -/

/-- The fixed keyword list `CRISIS_KEYWORDS` from crisis-detector.ts. -/
def CRISIS_KEYWORDS : List String :=
  ["suicide",
   "suicidal",
   "kill myself",
   "kill my self",
   "end my life",
   "end it all",
   "want to die",
   "better off dead",
   "no reason to live",
   "self harm",
   "self-harm",
   "hurt myself",
   "hurt my self"]

/-- Result record of `detectCrisis` (interface `CrisisDetection`). -/
structure CrisisDetection where
  isCrisis : Bool
  detectedKeywords : List String
  message : String
deriving Repr, DecidableEq

/-- Executable check that `needle` occurs at the start of `hay`
(JavaScript `String.prototype.startsWith` on character lists). -/
def startsWith : List Char → List Char → Bool
  | [], _ => true
  | _ :: _, [] => false
  | a :: as, b :: bs => a == b && startsWith as bs

/-- Executable check that `needle` occurs somewhere inside `hay`
(JavaScript `String.prototype.includes` on character lists). -/
def containsSub (needle : List Char) : List Char → Bool
  | [] => startsWith needle []
  | c :: rest => startsWith needle (c :: rest) || containsSub needle rest

/-- Specification-side proposition: `needle` is a contiguous substring of `hay`. -/
def SubstringOf (needle hay : List Char) : Prop :=
  ∃ pre post, hay = pre ++ needle ++ post

/-- `message.toLowerCase()` — lowercase every character. -/
def lowercase (message : String) : List Char :=
  message.data.map Char.toLower

/-- `detectCrisis` from crisis-detector.ts: lowercase the message, collect
every keyword of `CRISIS_KEYWORDS` contained in it (in list order), and set
`isCrisis` to whether at least one keyword matched. -/
def detectCrisis (message : String) : CrisisDetection :=
  let lowerMessage := lowercase message
  let detectedKeywords :=
    CRISIS_KEYWORDS.filter (fun keyword => containsSub keyword.data lowerMessage)
  { isCrisis := decide (detectedKeywords.length > 0),
    detectedKeywords := detectedKeywords,
    message := message }

theorem startsWith_iff (needle : List Char) :
    ∀ hay, startsWith needle hay = true ↔ ∃ post, hay = needle ++ post := by
  induction needle with
  | nil =>
    intro hay
    simp [startsWith]
  | cons a as ih =>
    intro hay
    cases hay with
    | nil =>
      simp [startsWith]
    | cons b bs =>
      simp only [startsWith, Bool.and_eq_true, beq_iff_eq, ih bs, List.cons_append]
      constructor
      · rintro ⟨rfl, post, rfl⟩
        exact ⟨post, rfl⟩
      · rintro ⟨post, h⟩
        injection h with h1 h2
        exact ⟨h1.symm, post, h2⟩

theorem containsSub_iff (needle : List Char) :
    ∀ hay, containsSub needle hay = true ↔ SubstringOf needle hay := by
  intro hay
  induction hay with
  | nil =>
    simp only [containsSub, startsWith_iff, SubstringOf]
    constructor
    · rintro ⟨post, h⟩
      exact ⟨[], post, by simpa using h⟩
    · rintro ⟨pre, post, h⟩
      have h' : pre = [] ∧ needle = [] ∧ post = [] := by simpa using h.symm
      obtain ⟨rfl, rfl, rfl⟩ := h'
      exact ⟨[], rfl⟩
  | cons c rest ih =>
    simp only [containsSub, Bool.or_eq_true, startsWith_iff, ih, SubstringOf]
    constructor
    · rintro (⟨post, h⟩ | ⟨pre, post, h⟩)
      · exact ⟨[], post, by simpa using h⟩
      · exact ⟨c :: pre, post, by simp [h]⟩
    · rintro ⟨pre, post, h⟩
      cases pre with
      | nil =>
        exact Or.inl ⟨post, by simpa using h⟩
      | cons p ps =>
        injection h with h1 h2
        exact Or.inr ⟨ps, post, h2⟩

/-- Claim C1: `detectCrisis` returns `isCrisis = true` iff the lowercased input
contains at least one keyword of the fixed list as a substring, and
`detectedKeywords` holds exactly the contained keywords in the fixed list's
order (a sublist of `CRISIS_KEYWORDS` whose members are exactly the matches). -/
theorem detectCrisis_spec (message : String) :
    ((detectCrisis message).isCrisis = true ↔
       ∃ keyword ∈ CRISIS_KEYWORDS, SubstringOf keyword.data (lowercase message))
  ∧ (∀ keyword, keyword ∈ (detectCrisis message).detectedKeywords ↔
       keyword ∈ CRISIS_KEYWORDS ∧ SubstringOf keyword.data (lowercase message))
  ∧ List.Sublist (detectCrisis message).detectedKeywords CRISIS_KEYWORDS := by
  refine ⟨?_, ?_, ?_⟩
  · simp only [detectCrisis, decide_eq_true_eq, List.length_pos_iff_exists_mem]
    constructor
    · rintro ⟨keyword, hk⟩
      rw [List.mem_filter] at hk
      exact ⟨keyword, hk.1, (containsSub_iff _ _).mp hk.2⟩
    · rintro ⟨keyword, hmem, hsub⟩
      exact ⟨keyword, List.mem_filter.mpr ⟨hmem, (containsSub_iff _ _).mpr hsub⟩⟩
  · intro keyword
    simp only [detectCrisis, List.mem_filter, containsSub_iff]
  · simpa only [detectCrisis] using
      List.filter_sublist (l := CRISIS_KEYWORDS)

/-! ### Shared chat data model (src/lib/ai/agent.ts, crisis-detector.ts) -/

/-- Message roles of the `ChatMessage` interface in agent.ts. -/
inductive Role where
  | system
  | user
  | assistant
deriving Repr, DecidableEq

/-- The `ChatMessage` interface in agent.ts. -/
structure ChatMessage where
  role : Role
  content : String
deriving Repr, DecidableEq

/-- The `SYSTEM_PROMPT` constant in agent.ts. -/
def SYSTEM_PROMPT : String :=
  "You are Avilon, a supportive AI therapy assistant trained in basic cognitive behavioral therapy (CBT) techniques.\n\nYour approach:\n- Be warm, empathetic, and non-judgmental\n- Use active listening and reflective responses\n- Apply evidence-based CBT techniques:\n  * Thought challenging (identifying and reframing negative thoughts)\n  * Behavioral activation (encouraging healthy activities)\n  * Mindfulness and grounding exercises\n  * Problem-solving strategies\n- Keep responses concise (2-3 paragraphs maximum)\n- Never diagnose conditions or prescribe medication\n- If asked about medication or diagnosis, explain you're not qualified and recommend seeing a licensed professional\n- Focus on the present moment and actionable steps\n- Validate emotions while encouraging healthy coping strategies\n\nImportant safety protocols:\n- If someone expresses thoughts of self-harm or suicide, immediately provide crisis resources\n- Always prioritize user safety over conversation flow\n- Recognize your limitations as an AI and recommend professional help when appropriate\n\nRemember: You are a supportive companion, not a replacement for professional mental health care."

/-- The `CRISIS_RESOURCES` constant in crisis-detector.ts. -/
def CRISIS_RESOURCES : String :=
  "\n🚨 **Crisis Support Resources**\n\nIf you're in immediate danger, please:\n\n1. **Call 988** - Suicide & Crisis Lifeline (US)\n   - Available 24/7\n   - Free and confidential support\n\n2. **Text \"HELLO\" to 741741** - Crisis Text Line\n   - Text-based support\n   - Available 24/7\n\n3. **Go to your nearest emergency room**\n\n4. **International Crisis Lines**: https://findahelpline.com\n\nYou are not alone. Help is available, and people care about you.\n"

/-- The `getCrisisResponse()` text in crisis-detector.ts — the fixed safety
message returned for every crisis turn. -/
def getCrisisResponse : String :=
  "I'm very concerned about what you've shared. Your safety is the top priority right now.\n\n"
    ++ CRISIS_RESOURCES
    ++ "\n\nI'm here to support you, but I'm not equipped to handle crisis situations. Please reach out to one of these resources immediately. They have trained professionals who can provide the help you need right now.\n\nWould you like to talk about what's making you feel this way, while also committing to reaching out to crisis support?"

/-- External calls the Session Controller can issue during a turn, recorded as
an effect trace: message-store inserts, crisis-incident logging, the Turn
Generator (completion service), Speech Synthesis, and the Visual Renderer. -/
inductive Effect where
  | insertMessage (role : Role) (content : String)
  | logIncident (keywords : List String)
  | generateTurn (history : List ChatMessage)
  | synthesizeSpeech (text : String)
  | renderVideo
deriving Repr, DecidableEq

/-- Possible behaviours of the external incident store during one insert:
success, a returned error value (supabase style), or a thrown exception. -/
inductive StoreOutcome where
  | ok
  | errorReturned (message : String)
  | exceptionThrown (message : String)
deriving Repr, DecidableEq

/-- `logCrisisIncident` from crisis-detector.ts: the insert's returned error is
only logged, and a thrown exception is caught and logged; the function returns
normally in every case. -/
def logCrisisIncident (outcome : StoreOutcome) : Except String Unit :=
  match outcome with
  | .ok => .ok ()
  | .errorReturned _ => .ok ()
  | .exceptionThrown _ => .ok ()

/-! ### Turn Generator (generateResponse in src/lib/ai/agent.ts) -/

/-- The 45000 ms abort timer armed around the completion fetch. -/
def GENERATION_TIMEOUT_MS : Nat := 45000

/-- The hard-coded reply returned when a 2xx completion response carries no
`choices[0].message.content`. -/
def FALLBACK_REPLY : String :=
  "I'm having trouble responding right now. Please try again."

/-- The error message thrown when the abort timer fires. -/
def TIMEOUT_ERROR : String := "Request timed out. Please try again."

/-- Outcome of the completion fetch: an HTTP response with status and optional
extracted content, an abort (timeout), or a network-level failure. -/
inductive FetchResult where
  | ok (status : Nat) (content : Option String)
  | aborted
  | netError (message : String)
deriving Repr, DecidableEq

/-- `response.ok` — status in the 2xx range. -/
def responseOk (status : Nat) : Bool := decide (200 ≤ status ∧ status < 300)

/-- `generateResponse` from agent.ts, as a function of the fetch outcome: a
non-2xx status throws `API error: <status>` which the catch clause rewraps as
`Failed to generate response: …`; an abort throws the timeout message; a 2xx
response returns its content, or the fallback reply when content is missing. -/
def generateResponse (result : FetchResult) : Except String String :=
  match result with
  | .aborted => .error TIMEOUT_ERROR
  | .netError m => .error ("Failed to generate response: " ++ m)
  | .ok status content =>
    if responseOk status then
      match content with
      | some text => .ok text
      | none => .ok FALLBACK_REPLY
    else
      .error ("Failed to generate response: API error: " ++ toString status)

/-! ### Session Controller, chat route (POST /api/chat) -/

/-- The JSON body returned by the chat route on success. -/
structure ChatResponse where
  response : String
  isCrisis : Bool
deriving Repr, DecidableEq

/-- Conversation history built by the chat route: one leading system-prompt
message, then the received `messageHistory` verbatim, then the current user
message. -/
def buildConversationHistory (messageHistory : List ChatMessage) (message : String) :
    List ChatMessage :=
  ⟨Role.system, SYSTEM_PROMPT⟩ :: (messageHistory ++ [⟨Role.user, message⟩])

/-- The `POST /api/chat` handler, parameterized by the incident-store outcome
and the Turn Generator's outcome. Returns the trace of external calls
actually issued together with the route result (`Except` models the catch
clause turning an exception into a 500 response). -/
def chatPOST (message : String) (messageHistory : List ChatMessage)
    (incidentOutcome : StoreOutcome) (generation : Except String String) :
    List Effect × Except String ChatResponse :=
  let userEffects := [Effect.insertMessage Role.user message]
  let crisisDetection := detectCrisis message
  if crisisDetection.isCrisis then
    match logCrisisIncident incidentOutcome with
    | .error e => (userEffects ++ [Effect.logIncident crisisDetection.detectedKeywords], .error e)
    | .ok _ =>
      let crisisResponse := getCrisisResponse
      (userEffects ++ [Effect.logIncident crisisDetection.detectedKeywords,
          Effect.insertMessage Role.assistant crisisResponse],
        .ok { response := crisisResponse, isCrisis := true })
  else
    let history := buildConversationHistory messageHistory message
    match generation with
    | .error e => (userEffects ++ [Effect.generateTurn history], .error e)
    | .ok reply =>
      (userEffects ++ [Effect.generateTurn history,
          Effect.insertMessage Role.assistant reply],
        .ok { response := reply, isCrisis := false })

/-- `messages.slice(-10)` — the last at most `n` elements of a list. -/
def sliceLast (n : Nat) (l : List α) : List α := l.drop (l.length - n)

/-- The chat client (`sendMessage` in chat-interface.tsx) sends
`messages.slice(-10)` as the `messageHistory` request field. -/
def clientMessageHistory (messages : List ChatMessage) : List ChatMessage :=
  sliceLast 10 messages

/-! ### Session Controller, avatar route (POST /api/avatar/generate) -/

/-- Conversation history built by `handleTextInput`/`handleAudioInput` in the
avatar route: one leading system-prompt message, then the received history. -/
def buildAvatarHistory (messageHistory : List ChatMessage) : List ChatMessage :=
  ⟨Role.system, SYSTEM_PROMPT⟩ :: messageHistory

/-- `generateAvatarResponse` from streaming.ts: generate the reply from the
history plus the user's text, synthesize speech from it, then render the
lip-synced video. Returns the issued external calls and the reply text, given
the Turn Generator's reply. -/
def generateAvatarResponse (userText : String) (conversationHistory : List ChatMessage)
    (replyText : String) : List Effect × String :=
  ([Effect.generateTurn (conversationHistory ++ [⟨Role.user, userText⟩]),
    Effect.synthesizeSpeech replyText,
    Effect.renderVideo], replyText)

/-- Result of the avatar route's text handler: trace plus response text. -/
structure AvatarTextResult where
  effects : List Effect
  responseText : String
deriving Repr, DecidableEq

/-- `handleTextInput` from the avatar generate route: reject empty text or a
missing avatar profile, otherwise run the full
generate → synthesize → render pipeline on every input (the route performs no
crisis classification), then persist both messages when a session id is
present. -/
def handleTextInput (text : String) (messageHistory : List ChatMessage)
    (hasAvatarProfile : Bool) (replyText : String) (sessionIdPresent : Bool) :
    Option AvatarTextResult :=
  if text = "" then none
  else if hasAvatarProfile = false then none
  else
    let conversationHistory := buildAvatarHistory messageHistory
    let generated := generateAvatarResponse text conversationHistory replyText
    let storeEffects :=
      if sessionIdPresent then
        [Effect.insertMessage Role.user text,
         Effect.insertMessage Role.assistant generated.2]
      else []
    some { effects := generated.1 ++ storeEffects, responseText := generated.2 }

/-- Claim C2 (code-bug evidence): the avatar-route Session Controller
(`handleTextInput` in POST /api/avatar/generate) performs no crisis
classification. For the crisis input "I want to end it all" — which
`detectCrisis` classifies as a crisis — it still invokes the Turn Generator,
Speech Synthesis and the Visual Renderer, and the delivered response is the
generator's reply rather than the fixed safety message. -/
theorem handleTextInput_crisis_pipeline :
    (detectCrisis ("I want to end it all")).isCrisis = true
  ∧ handleTextInput ("I want to end it all") [] true ("generated reply") true =
      some ⟨[Effect.generateTurn
               [⟨Role.system, SYSTEM_PROMPT⟩, ⟨Role.user, "I want to end it all"⟩],
             Effect.synthesizeSpeech ("generated reply"),
             Effect.renderVideo,
             Effect.insertMessage Role.user ("I want to end it all"),
             Effect.insertMessage Role.assistant ("generated reply")],
            "generated reply"⟩ := by
  exact ⟨by decide, rfl⟩

/-- Claim C6 (amended): `generateResponse` arms a 45000 ms abort timer; an
abort (timeout) fails with the timeout error, a network failure and every
non-2xx response fail with a wrapped error — all surfaced to the caller via
the thrown exception, never swallowed — and a 2xx response returns its
content; but a 2xx response with missing content returns the fixed fallback
reply text instead of failing. -/
theorem generateResponse_spec :
    GENERATION_TIMEOUT_MS = 45000
  ∧ generateResponse FetchResult.aborted = Except.error TIMEOUT_ERROR
  ∧ (∀ m, generateResponse (FetchResult.netError m) =
      Except.error ("Failed to generate response: " ++ m))
  ∧ (∀ status content, responseOk status = false →
      generateResponse (FetchResult.ok status content) =
        Except.error ("Failed to generate response: API error: " ++ toString status))
  ∧ (∀ status text, responseOk status = true →
      generateResponse (FetchResult.ok status (some text)) = Except.ok text)
  ∧ (∀ status, responseOk status = true →
      generateResponse (FetchResult.ok status none) = Except.ok FALLBACK_REPLY) := by
  refine ⟨rfl, rfl, fun m => rfl, ?_, ?_, ?_⟩
  · intro status content h
    simp [generateResponse, h]
  · intro status text h
    simp [generateResponse, h]
  · intro status h
    simp [generateResponse, h]

/-- Witness for `generateResponse_spec` at concrete statuses 503 and 200. -/
theorem generateResponse_spec_witness :
    generateResponse (FetchResult.ok 503 none) =
      Except.error ("Failed to generate response: API error: " ++ toString 503)
  ∧ generateResponse (FetchResult.ok 200 (some ("hi"))) = Except.ok ("hi") :=
  ⟨generateResponse_spec.2.2.2.1 503 none (by decide),
   generateResponse_spec.2.2.2.2.1 200 ("hi") (by decide)⟩

/-- Claim C6 counterexample: on a 2xx provider response with no reply content
`generateResponse` returns the hard-coded substitute reply text instead of
failing, refuting "the function never returns a substitute reply text instead
of failing". -/
theorem generateResponse_fallback :
    generateResponse (FetchResult.ok 200 none) = Except.ok FALLBACK_REPLY := rfl

/-- Claim C7: `logCrisisIncident` returns normally for every incident-store
outcome (returned error values and thrown exceptions are both swallowed), so
on every crisis turn the chat route still delivers the fixed safety response,
and the crisis path never invokes the Turn Generator (completion service). -/
theorem logCrisisIncident_swallows :
    (∀ outcome, logCrisisIncident outcome = Except.ok ())
  ∧ (∀ message messageHistory outcome generation,
      (detectCrisis message).isCrisis = true →
      (chatPOST message messageHistory outcome generation).2 =
          Except.ok { response := getCrisisResponse, isCrisis := true }
        ∧ (∀ h, Effect.generateTurn h ∉
            (chatPOST message messageHistory outcome generation).1)) := by
  constructor
  · intro outcome
    cases outcome <;> rfl
  · intro message messageHistory outcome generation hcrisis
    have hlog : logCrisisIncident outcome = Except.ok () := by cases outcome <;> rfl
    refine ⟨?_, ?_⟩
    · simp [chatPOST, hcrisis, hlog]
    · intro h
      simp [chatPOST, hcrisis, hlog]

/-- Witness for `logCrisisIncident_swallows`: a throwing incident store still
lets the crisis input "suicide" receive the safety response. -/
theorem logCrisisIncident_swallows_witness :
    (chatPOST ("suicide") [] (StoreOutcome.exceptionThrown ("db down"))
        (Except.ok ("reply"))).2 =
      Except.ok { response := getCrisisResponse, isCrisis := true } :=
  (logCrisisIncident_swallows.2 ("suicide") [] (StoreOutcome.exceptionThrown ("db down"))
    (Except.ok ("reply")) (by decide)).1

/-- Claim C9: on every non-crisis turn the history handed to the Turn
Generator is exactly one leading system-prompt message, then the client-sent
history (the last at most 10 prior messages, a suffix of the full history),
then the current user message — and nothing else is ever passed. -/
theorem chat_history_cap (messages : List ChatMessage) (message : String)
    (outcome : StoreOutcome) (generation : Except String String)
    (hnc : (detectCrisis message).isCrisis = false) :
    Effect.generateTurn (buildConversationHistory (clientMessageHistory messages) message)
        ∈ (chatPOST message (clientMessageHistory messages) outcome generation).1
  ∧ (∀ h, Effect.generateTurn h ∈
        (chatPOST message (clientMessageHistory messages) outcome generation).1 →
      h = buildConversationHistory (clientMessageHistory messages) message)
  ∧ (buildConversationHistory (clientMessageHistory messages) message).head? =
      some ⟨Role.system, SYSTEM_PROMPT⟩
  ∧ (buildConversationHistory (clientMessageHistory messages) message).getLast? =
      some ⟨Role.user, message⟩
  ∧ buildConversationHistory (clientMessageHistory messages) message =
      ⟨Role.system, SYSTEM_PROMPT⟩ :: (clientMessageHistory messages ++ [⟨Role.user, message⟩])
  ∧ (clientMessageHistory messages).length ≤ 10
  ∧ List.IsSuffix (clientMessageHistory messages) messages := by
  refine ⟨?_, ?_, rfl, ?_, rfl, ?_, ?_⟩
  · cases generation <;> simp [chatPOST, hnc]
  · intro h hm
    cases generation <;> simp [chatPOST, hnc] at hm <;> exact hm
  · have heq : buildConversationHistory (clientMessageHistory messages) message =
        (⟨Role.system, SYSTEM_PROMPT⟩ :: clientMessageHistory messages)
          ++ [(⟨Role.user, message⟩ : ChatMessage)] := rfl
    rw [heq, List.getLast?_concat]
  · simp only [clientMessageHistory, sliceLast, List.length_drop]
    omega
  · exact List.drop_suffix _ _

/-- Witness for `chat_history_cap` at a concrete non-crisis turn. -/
theorem chat_history_cap_witness :
    (clientMessageHistory [(⟨Role.user, "hi"⟩ : ChatMessage)]).length ≤ 10 :=
  (chat_history_cap [⟨Role.user, "hi"⟩] ("hello") StoreOutcome.ok
    (Except.ok ("reply")) (by decide)).2.2.2.2.2.1

/-! ### Caption buffer (app-message caption handler in
pipecat-video-interface.tsx) -/

/-- Caption speakers (`"user" | "bot"`). -/
inductive Speaker where
  | user
  | bot
deriving Repr, DecidableEq

/-- The `CaptionMessage` interface of pipecat-video-interface.tsx. -/
structure CaptionMessage where
  speaker : Speaker
  text : String
  isFinal : Bool
  timestamp : Nat
deriving Repr, DecidableEq

/-- The predicate `c.speaker === caption.speaker && !c.isFinal` used by the
caption handler to find a replaceable interim entry. -/
def isInterimOf (s : Speaker) (c : CaptionMessage) : Bool :=
  decide (c.speaker = s) && !c.isFinal

/-- The `setCaptions` updater of the `"caption"` app-message handler: an
interim caption replaces the first interim entry of the same speaker in
place, or is appended; a final caption removes every interim entry of its
speaker, is appended, and the buffer is truncated to its last 10 entries
(`slice(-10)`). -/
def applyCaption (prev : List CaptionMessage) (caption : CaptionMessage) :
    List CaptionMessage :=
  if caption.isFinal = false then
    match List.findIdx? (isInterimOf caption.speaker) prev with
    | some i => prev.set i caption
    | none => sliceLast 10 (prev ++ [caption])
  else
    let filtered :=
      prev.filter (fun c => !decide (c.speaker = caption.speaker) || c.isFinal)
    sliceLast 10 (filtered ++ [caption])

/-- The caption buffer after a sequence of caption events, starting empty. -/
def applyCaptions (events : List CaptionMessage) : List CaptionMessage :=
  events.foldl applyCaption []

/-- Replace the first element satisfying `p` by `x` (`findIndex` followed by
an in-place store), as a structural recursion. -/
def replaceFirst (p : CaptionMessage → Bool) (x : CaptionMessage) :
    List CaptionMessage → Option (List CaptionMessage)
  | [] => none
  | c :: rest =>
    if p c then some (x :: rest)
    else (replaceFirst p x rest).map (fun ys => c :: ys)


theorem findIdx?_shift (p : CaptionMessage → Bool) :
    ∀ (l : List CaptionMessage) (i : Nat),
      List.findIdx? p l i = (List.findIdx? p l).map (fun j => j + i) := by
  intro l
  induction l with
  | nil => intro i; rfl
  | cons c rest ih =>
    intro i
    rw [List.findIdx?_cons, List.findIdx?_cons]
    by_cases h : p c = true
    · rw [if_pos h, if_pos h]
      simp
    · rw [if_neg h, if_neg h, ih (i + 1), ih 1, Option.map_map]
      have hfun : (fun j => j + (i + 1)) = ((fun j => j + i) ∘ fun j => j + 1) := by
        funext j
        show j + (i + 1) = j + 1 + i
        omega
      rw [hfun]

theorem findIdx?_set_eq_replaceFirst (p : CaptionMessage → Bool) (x : CaptionMessage) :
    ∀ l : List CaptionMessage,
      (List.findIdx? p l).map (fun i => l.set i x) = replaceFirst p x l := by
  intro l
  induction l with
  | nil => rfl
  | cons c rest ih =>
    rw [List.findIdx?_cons]
    by_cases h : p c = true
    · rw [if_pos h]
      simp [replaceFirst, h]
    · have hrf : replaceFirst p x (c :: rest) =
          (replaceFirst p x rest).map (fun ys => c :: ys) := by
        simp [replaceFirst, h]
      rw [if_neg h, findIdx?_shift p rest 1, Option.map_map, hrf, ← ih, Option.map_map]
      have hfun : ((fun i => (c :: rest).set i x) ∘ fun j => j + 1) =
          ((fun ys => c :: ys) ∘ fun i => rest.set i x) := by
        funext j
        show (c :: rest).set (j + 1) x = c :: rest.set j x
        exact List.set_cons_succ c rest j x
      rw [hfun]

theorem replaceFirst_length (p : CaptionMessage → Bool) (x : CaptionMessage) :
    ∀ l l', replaceFirst p x l = some l' → l'.length = l.length := by
  intro l
  induction l with
  | nil =>
    intro l' h
    simp [replaceFirst] at h
  | cons c rest ih =>
    intro l' h
    by_cases hc : p c = true
    · rw [show replaceFirst p x (c :: rest) = some (x :: rest) by
        simp [replaceFirst, hc]] at h
      injection h with h
      subst h
      rfl
    · rw [show replaceFirst p x (c :: rest) =
          (replaceFirst p x rest).map (fun ys => c :: ys) by
        simp [replaceFirst, hc]] at h
      cases hrf : replaceFirst p x rest with
      | none =>
        rw [hrf] at h
        cases h
      | some ys =>
        rw [hrf] at h
        injection h with h
        subst h
        simp [ih ys hrf]

theorem replaceFirst_filter_length (p q : CaptionMessage → Bool) (x : CaptionMessage)
    (hpq : ∀ c, p c = true → q c = q x) :
    ∀ l l', replaceFirst p x l = some l' →
      (l'.filter q).length = (l.filter q).length := by
  intro l
  induction l with
  | nil =>
    intro l' h
    simp [replaceFirst] at h
  | cons c rest ih =>
    intro l' h
    by_cases hc : p c = true
    · rw [show replaceFirst p x (c :: rest) = some (x :: rest) by
        simp [replaceFirst, hc]] at h
      injection h with h
      subst h
      simp only [List.filter_cons, hpq c hc]
      cases q x <;> simp
    · rw [show replaceFirst p x (c :: rest) =
          (replaceFirst p x rest).map (fun ys => c :: ys) by
        simp [replaceFirst, hc]] at h
      cases hrf : replaceFirst p x rest with
      | none =>
        rw [hrf] at h
        cases h
      | some ys =>
        rw [hrf] at h
        injection h with h
        subst h
        simp only [List.filter_cons]
        cases q c <;> simp [ih ys hrf]

theorem replaceFirst_none (p : CaptionMessage → Bool) (x : CaptionMessage) :
    ∀ l, replaceFirst p x l = none → ∀ c ∈ l, p c = false := by
  intro l
  induction l with
  | nil =>
    intro _ c hc
    cases hc
  | cons c rest ih =>
    intro h d hd
    by_cases hc : p c = true
    · rw [show replaceFirst p x (c :: rest) = some (x :: rest) by
        simp [replaceFirst, hc]] at h
      cases h
    · rw [show replaceFirst p x (c :: rest) =
          (replaceFirst p x rest).map (fun ys => c :: ys) by
        simp [replaceFirst, hc]] at h
      rcases List.mem_cons.mp hd with rfl | hd'
      · simpa using hc
      · exact ih (Option.map_eq_none'.mp h) d hd'

/-- Number of interim entries of speaker `s` in the buffer. -/
def interimCount (s : Speaker) (l : List CaptionMessage) : Nat :=
  (l.filter (isInterimOf s)).length

theorem sliceLast_sublist (n : Nat) (l : List CaptionMessage) :
    List.Sublist (sliceLast n l) l := List.drop_sublist _ _

theorem length_sliceLast_le (n : Nat) (l : List CaptionMessage) :
    (sliceLast n l).length ≤ n := by
  simp only [sliceLast, List.length_drop]
  omega

theorem getLast?_sliceLast (n : Nat) (hn : 0 < n) (l : List CaptionMessage)
    (x : CaptionMessage) : (sliceLast n (l ++ [x])).getLast? = some x := by
  have hlen : l.length + 1 - n ≤ l.length := by omega
  simp only [sliceLast, List.length_append, List.length_singleton]
  rw [List.drop_append_of_le_length hlen, List.getLast?_concat]

theorem interimCount_append_one (s : Speaker) (l : List CaptionMessage)
    (x : CaptionMessage) :
    interimCount s (l ++ [x]) =
      interimCount s l + (if isInterimOf s x then 1 else 0) := by
  simp only [interimCount, List.filter_append, List.length_append, List.filter_cons]
  cases h : isInterimOf s x <;> simp [h]

theorem interimCount_le_of_sublist (s : Speaker) {l₁ l₂ : List CaptionMessage}
    (h : List.Sublist l₁ l₂) : interimCount s l₁ ≤ interimCount s l₂ :=
  (List.Sublist.filter (isInterimOf s) h).length_le

theorem isInterimOf_false_of_final (s : Speaker) (c : CaptionMessage)
    (h : c.isFinal = true) : isInterimOf s c = false := by
  simp [isInterimOf, h]

theorem isInterimOf_false_of_ne (s : Speaker) (c : CaptionMessage)
    (h : ¬c.speaker = s) : isInterimOf s c = false := by
  simp [isInterimOf, h]

theorem applyCaption_found (prev : List CaptionMessage) (caption : CaptionMessage)
    (i : Nat) (hfin : caption.isFinal = false)
    (hr : List.findIdx? (isInterimOf caption.speaker) prev = some i) :
    applyCaption prev caption = prev.set i caption := by
  unfold applyCaption
  rw [if_pos hfin, hr]

theorem applyCaption_notfound (prev : List CaptionMessage) (caption : CaptionMessage)
    (hfin : caption.isFinal = false)
    (hr : List.findIdx? (isInterimOf caption.speaker) prev = none) :
    applyCaption prev caption = sliceLast 10 (prev ++ [caption]) := by
  unfold applyCaption
  rw [if_pos hfin, hr]

theorem applyCaption_final (prev : List CaptionMessage) (caption : CaptionMessage)
    (hfin : caption.isFinal = true) :
    applyCaption prev caption =
      sliceLast 10
        ((prev.filter fun c => !decide (c.speaker = caption.speaker) || c.isFinal)
          ++ [caption]) := by
  unfold applyCaption
  rw [if_neg (by simp [hfin])]

/-- One caption event preserves "at most one interim per speaker" and the
10-entry bound. -/
theorem applyCaption_preserves (prev : List CaptionMessage) (caption : CaptionMessage)
    (hint : ∀ s, interimCount s prev ≤ 1) (hlen : prev.length ≤ 10) :
    (∀ s, interimCount s (applyCaption prev caption) ≤ 1)
  ∧ (applyCaption prev caption).length ≤ 10 := by
  by_cases hfin : caption.isFinal = false
  · cases hr : List.findIdx? (isInterimOf caption.speaker) prev with
    | some i =>
      rw [applyCaption_found prev caption i hfin hr]
      have heq : replaceFirst (isInterimOf caption.speaker) caption prev =
          some (prev.set i caption) := by
        rw [← findIdx?_set_eq_replaceFirst, hr]
        rfl
      constructor
      · intro s
        have hcount := replaceFirst_filter_length (isInterimOf caption.speaker)
          (isInterimOf s) caption ?_ prev (prev.set i caption) heq
        · rw [show interimCount s (prev.set i caption) =
              ((prev.set i caption).filter (isInterimOf s)).length from rfl, hcount]
          exact hint s
        · intro c hc
          simp only [isInterimOf, Bool.and_eq_true, decide_eq_true_eq,
            Bool.not_eq_true'] at hc
          by_cases hs : s = caption.speaker
          · subst hs
            simp [isInterimOf, hc.1, hc.2, hfin]
          · have h1 : isInterimOf s c = false :=
              isInterimOf_false_of_ne s c (by rw [hc.1]; exact fun h => hs h.symm)
            have h2 : isInterimOf s caption = false :=
              isInterimOf_false_of_ne s caption (fun h => hs h.symm)
            rw [h1, h2]
      · rw [List.length_set]
        exact hlen
    | none =>
      rw [applyCaption_notfound prev caption hfin hr]
      have hnone : replaceFirst (isInterimOf caption.speaker) caption prev = none := by
        rw [← findIdx?_set_eq_replaceFirst, hr]
        rfl
      have hall := replaceFirst_none _ _ prev hnone
      constructor
      · intro s
        refine le_trans (interimCount_le_of_sublist s (sliceLast_sublist _ _)) ?_
        rw [interimCount_append_one]
        by_cases hs : s = caption.speaker
        · subst hs
          have hzero : interimCount caption.speaker prev = 0 := by
            unfold interimCount
            rw [List.filter_eq_nil_iff.mpr ?_]
            · rfl
            · intro c hc
              simp [hall c hc]
          rw [hzero]
          split <;> omega
        · have hcap : isInterimOf s caption = false :=
            isInterimOf_false_of_ne s caption (fun h => hs h.symm)
          rw [hcap]
          simpa using hint s
      · exact length_sliceLast_le 10 _
  · have hfin' : caption.isFinal = true := by
      revert hfin
      cases caption.isFinal <;> simp
    rw [applyCaption_final prev caption hfin']
    constructor
    · intro s
      refine le_trans (interimCount_le_of_sublist s (sliceLast_sublist _ _)) ?_
      rw [interimCount_append_one, isInterimOf_false_of_final s caption hfin']
      simp only [Bool.false_eq_true, if_false, Nat.add_zero]
      by_cases hs : s = caption.speaker
      · subst hs
        have hzero : interimCount caption.speaker
            (prev.filter fun c => !decide (c.speaker = caption.speaker) || c.isFinal)
              = 0 := by
          unfold interimCount
          rw [List.filter_eq_nil_iff.mpr ?_]
          · rfl
          · intro c hc
            have hq := (List.mem_filter.mp hc).2
            simp only [Bool.or_eq_true, Bool.not_eq_true', decide_eq_false_iff_not] at hq
            intro hcontra
            simp only [isInterimOf, Bool.and_eq_true, decide_eq_true_eq,
              Bool.not_eq_true'] at hcontra
            rcases hq with h | h
            · exact h hcontra.1
            · rw [hcontra.2] at h
              cases h
        rw [hzero]
        omega
      · exact le_trans
          (interimCount_le_of_sublist s (List.filter_sublist prev)) (hint s)
    · exact length_sliceLast_le 10 _

theorem captionBuffer_fold (events : List CaptionMessage) :
    ∀ l, ((∀ s, interimCount s l ≤ 1) ∧ l.length ≤ 10) →
      (∀ s, interimCount s (events.foldl applyCaption l) ≤ 1)
      ∧ (events.foldl applyCaption l).length ≤ 10 := by
  induction events with
  | nil =>
    intro l h
    exact h
  | cons e rest ih =>
    intro l h
    exact ih (applyCaption l e) (applyCaption_preserves l e h.1 h.2)

/-- Claim C4: after any sequence of caption events starting from the empty
buffer, at most one interim (non-final) caption per speaker exists and the
buffer holds at most 10 entries; moreover applying a final caption removes
every interim entry of its speaker and appends that final caption as the last
entry. -/
theorem captionBuffer_invariants :
    (∀ events s, interimCount s (applyCaptions events) ≤ 1)
  ∧ (∀ events, (applyCaptions events).length ≤ 10)
  ∧ (∀ prev caption, caption.isFinal = true →
      (∀ c ∈ applyCaption prev caption, c.speaker = caption.speaker →
        c.isFinal = true)
      ∧ (applyCaption prev caption).getLast? = some caption) := by
  refine ⟨?_, ?_, ?_⟩
  · intro events s
    exact (captionBuffer_fold events []
      ⟨fun s => by simp [interimCount], by simp⟩).1 s
  · intro events
    exact (captionBuffer_fold events []
      ⟨fun s => by simp [interimCount], by simp⟩).2
  · intro prev caption hfin
    rw [applyCaption_final prev caption hfin]
    constructor
    · intro c hc hsp
      have hc' := (sliceLast_sublist 10 _).subset hc
      rcases List.mem_append.mp hc' with hmem | hmem
      · have hq := (List.mem_filter.mp hmem).2
        simp only [Bool.or_eq_true, Bool.not_eq_true', decide_eq_false_iff_not] at hq
        rcases hq with h | h
        · exact absurd hsp h
        · exact h
      · rw [List.mem_singleton.mp hmem]
        exact hfin
    · exact getLast?_sliceLast 10 (by omega) _ caption

/-- Witness for `captionBuffer_invariants` on a concrete final caption. -/
theorem captionBuffer_invariants_witness :
    (applyCaption [] ⟨Speaker.bot, "hi", true, 5⟩).getLast? =
      some ⟨Speaker.bot, "hi", true, 5⟩ :=
  (captionBuffer_invariants.2.2 [] ⟨Speaker.bot, "hi", true, 5⟩ rfl).2

/-- Claim C8 counterexample: feeding the identical final caption twice yields
two buffer entries, not one — before appending a final caption the handler
removes only interim entries of the speaker, never duplicate finals. -/
theorem captionBuffer_final_duplicated :
    applyCaptions
        [⟨Speaker.bot, "hello", true, 0⟩, ⟨Speaker.bot, "hello", true, 0⟩] =
      [⟨Speaker.bot, "hello", true, 0⟩, ⟨Speaker.bot, "hello", true, 0⟩] := by
  rfl

/-- Claim C8 (amended): feeding the same final caption twice appends it twice
(the update is not idempotent on finals), while feeding interim, interim,
final for one speaker yields exactly one final entry carrying the final
text. -/
theorem captionBuffer_interim_finalize :
    (∀ f : CaptionMessage, f.isFinal = true → applyCaptions [f, f] = [f, f])
  ∧ (∀ i1 i2 f : CaptionMessage,
      i1.speaker = f.speaker → i2.speaker = f.speaker →
      i1.isFinal = false → i2.isFinal = false → f.isFinal = true →
      applyCaptions [i1, i2, f] = [f]) := by
  constructor
  · intro f hf
    have h1 : applyCaption [] f = [f] := by
      rw [applyCaption_final [] f hf]
      rfl
    have h2 : applyCaption [f] f = [f, f] := by
      rw [applyCaption_final [f] f hf]
      rw [show List.filter (fun c => !decide (c.speaker = f.speaker) || c.isFinal) [f]
            = [f] by simp [hf]]
      rfl
    show applyCaption (applyCaption [] f) f = [f, f]
    rw [h1, h2]
  · intro i1 i2 f h1 h2 hi1 hi2 hf
    have s1 : applyCaption [] i1 = [i1] := by
      rw [applyCaption_notfound [] i1 hi1 rfl]
      rfl
    have s2 : applyCaption [i1] i2 = [i2] := by
      have hfind : List.findIdx? (isInterimOf i2.speaker) [i1] = some 0 := by
        rw [List.findIdx?_cons]
        rw [show isInterimOf i2.speaker i1 = true by simp [isInterimOf, h1, h2, hi1]]
        rfl
      rw [applyCaption_found [i1] i2 0 hi2 hfind]
      rfl
    have s3 : applyCaption [i2] f = [f] := by
      rw [applyCaption_final [i2] f hf]
      rw [show List.filter (fun c => !decide (c.speaker = f.speaker) || c.isFinal) [i2]
            = [] by simp [h2, hi2]]
      rfl
    show applyCaption (applyCaption (applyCaption [] i1) i2) f = [f]
    rw [s1, s2, s3]

/-- Witness for `captionBuffer_interim_finalize` on concrete captions. -/
theorem captionBuffer_interim_finalize_witness :
    applyCaptions
        [⟨Speaker.user, "a", false, 0⟩, ⟨Speaker.user, "ab", false, 1⟩,
         ⟨Speaker.user, "abc", true, 2⟩] =
      [⟨Speaker.user, "abc", true, 2⟩] :=
  captionBuffer_interim_finalize.2 ⟨Speaker.user, "a", false, 0⟩
    ⟨Speaker.user, "ab", false, 1⟩ ⟨Speaker.user, "abc", true, 2⟩ rfl rfl rfl rfl rfl

/-! ### Connection Lifecycle Manager (module-level singleton in
pipecat-video-interface.tsx) -/

/-- The module-level globals `globalDailyCall`, `globalConnectionPromise` and
`globalSessionId`, plus the set of call objects created and not yet destroyed
(to state the process-wide singleton property). Call objects and in-flight
connect promises are identified by numeric tags. -/
structure ConnState where
  dailyCall : Option Nat
  connectionPromise : Option Nat
  storedSession : Option String
  live : List Nat
deriving Repr, DecidableEq

/-- Initial module state: all three globals are `null`. -/
def initialConnState : ConnState := ⟨none, none, none, []⟩

/-- `cleanupCall(true)`: leave and destroy the current call object and clear
all three globals. -/
def cleanupCall (st : ConnState) : ConnState :=
  { dailyCall := none, connectionPromise := none, storedSession := none,
    live := match st.dailyCall with
            | some c => st.live.erase c
            | none => st.live }

/-- Events affecting the singleton: the synchronous prefix of
`connectToSession` (up to the `await` of the connect promise), the
continuation after the promise resolves (which creates the Daily call object
only if none exists), the catch clause of a failed connect, and an explicit
disconnect. -/
inductive ConnEvent where
  | connectSync (sessionId : String) (freshPromise : Nat)
  | promiseResolved (callId : Nat)
  | connectFailed
  | disconnect
deriving Repr, DecidableEq

/-- The promise-reuse step of `connectToSession`: issue a new underlying
connect call only when no promise is pending or the stored session id
differs; otherwise await the pending promise. Returns the new state and
whether an underlying connect call was issued. -/
def connectPromisePhase (st : ConnState) (sessionId : String) (freshPromise : Nat) :
    ConnState × Bool :=
  if st.connectionPromise = none ∨ ¬st.storedSession = some sessionId then
    ({ st with storedSession := some sessionId,
               connectionPromise := some freshPromise }, true)
  else (st, false)

/-- One event step of the lifecycle manager. `connectSync`: reuse the live
connection when its session id matches, otherwise tear down a live connection
for a different session, then run the promise-reuse phase. `promiseResolved`:
create the call object only when `globalDailyCall` is still null.
`connectFailed`: the catch clause clears the pending promise and session id.
The returned flag records whether an underlying connect call was issued. -/
def connStep (st : ConnState) : ConnEvent → ConnState × Bool
  | .connectSync sessionId freshPromise =>
    match st.dailyCall with
    | some _ =>
      if st.storedSession = some sessionId then (st, false)
      else connectPromisePhase (cleanupCall st) sessionId freshPromise
    | none => connectPromisePhase st sessionId freshPromise
  | .promiseResolved callId =>
    if st.dailyCall = none then
      ({ st with dailyCall := some callId, live := callId :: st.live }, false)
    else (st, false)
  | .connectFailed =>
    ({ st with connectionPromise := none, storedSession := none }, false)
  | .disconnect => (cleanupCall st, false)

/-- Run a sequence of lifecycle events from the initial state. -/
def connRun (events : List ConnEvent) : ConnState :=
  events.foldl (fun st e => (connStep st e).1) initialConnState

/-- The singleton invariant: the live call objects are exactly the one stored
in `globalDailyCall` (if any). -/
def ConnInv (st : ConnState) : Prop :=
  st.live = st.dailyCall.toList

theorem cleanupCall_inv (st : ConnState) (h : ConnInv st) : ConnInv (cleanupCall st) := by
  unfold ConnInv at h
  unfold ConnInv cleanupCall
  cases hc : st.dailyCall with
  | none =>
    rw [hc] at h
    simpa [hc] using h
  | some c =>
    rw [hc] at h
    simp only [Option.toList] at h
    simp [hc, h, List.erase_cons_head]

theorem connectPromisePhase_live (st : ConnState) (sessionId : String) (p : Nat) :
    (connectPromisePhase st sessionId p).1.live = st.live
  ∧ (connectPromisePhase st sessionId p).1.dailyCall = st.dailyCall := by
  unfold connectPromisePhase
  split <;> exact ⟨rfl, rfl⟩

theorem connStep_inv (st : ConnState) (e : ConnEvent) (h : ConnInv st) :
    ConnInv (connStep st e).1 := by
  cases e with
  | connectSync sessionId freshPromise =>
    cases hc : st.dailyCall with
    | some c =>
      by_cases hs : st.storedSession = some sessionId
      · simpa [connStep, hc, hs] using h
      · simp only [connStep, hc]
        rw [if_neg hs]
        have hclean := cleanupCall_inv st h
        have hphase := connectPromisePhase_live (cleanupCall st) sessionId freshPromise
        unfold ConnInv
        rw [hphase.1, hphase.2]
        exact hclean
    | none =>
      simp only [connStep, hc]
      have hphase := connectPromisePhase_live st sessionId freshPromise
      unfold ConnInv
      rw [hphase.1, hphase.2]
      rw [ConnInv, hc] at h
      simpa [hc] using h
  | promiseResolved callId =>
    by_cases hc : st.dailyCall = none
    · simp only [connStep, if_pos hc]
      unfold ConnInv at h ⊢
      rw [hc] at h
      simp only [Option.toList] at h
      simp [h]
    · simp only [connStep, if_neg hc]
      exact h
  | connectFailed =>
    exact h
  | disconnect =>
    exact cleanupCall_inv st h

theorem connRun_inv (events : List ConnEvent) : ConnInv (connRun events) := by
  suffices hgen : ∀ st, ConnInv st →
      ConnInv (events.foldl (fun st e => (connStep st e).1) st) by
    exact hgen initialConnState rfl
  induction events with
  | nil =>
    intro st h
    exact h
  | cons e rest ih =>
    intro st h
    exact ih ((connStep st e).1) (connStep_inv st e h)

/-- Claim C3: the lifecycle manager keeps at most one live connection
process-wide (after any event sequence at most one undestroyed call object
exists); a `connectSync` for the stored session id with a live call reuses it
and issues no connect call; a `connectSync` for a different session id while
a call is live destroys that call first and issues a fresh connect call; a
second `connectSync` for the same session id while the first connect promise
is still pending reuses the pending promise and issues no second connect
call; and the catch clause of a failed connect clears the pending promise and
stored session id, so the next `connectSync` always issues a fresh connect
call. -/
theorem connectionLifecycle_spec :
    (∀ events, (connRun events).live.length ≤ 1)
  ∧ (∀ st sessionId p, st.dailyCall.isSome = true →
      st.storedSession = some sessionId →
      connStep st (ConnEvent.connectSync sessionId p) = (st, false))
  ∧ (∀ st sessionId p c, ConnInv st → st.dailyCall = some c →
      ¬st.storedSession = some sessionId →
      (connStep st (ConnEvent.connectSync sessionId p)).1.live = []
      ∧ (connStep st (ConnEvent.connectSync sessionId p)).2 = true)
  ∧ (∀ st sessionId p q, st.dailyCall = none →
      (connStep st (ConnEvent.connectSync sessionId p)).2 = true →
      connStep (connStep st (ConnEvent.connectSync sessionId p)).1
          (ConnEvent.connectSync sessionId q) =
        ((connStep st (ConnEvent.connectSync sessionId p)).1, false))
  ∧ (∀ st,
      (connStep st ConnEvent.connectFailed).1.connectionPromise = none
      ∧ (connStep st ConnEvent.connectFailed).1.storedSession = none
      ∧ ∀ sessionId p,
          (connStep (connStep st ConnEvent.connectFailed).1
            (ConnEvent.connectSync sessionId p)).2 = true) := by
  refine ⟨?_, ?_, ?_, ?_, ?_⟩
  · intro events
    have h := connRun_inv events
    rw [ConnInv] at h
    rw [h]
    cases (connRun events).dailyCall <;> simp
  · intro st sessionId p hcall hsession
    cases hc : st.dailyCall with
    | none =>
      rw [hc] at hcall
      cases hcall
    | some c =>
      simp only [connStep, hc]
      rw [if_pos hsession]
  · intro st sessionId p c hinv hcall hsession
    have hclean : (cleanupCall st).live = [] := by
      have h := cleanupCall_inv st hinv
      rw [ConnInv] at h
      simpa [cleanupCall] using h
    have hstep : connStep st (ConnEvent.connectSync sessionId p) =
        connectPromisePhase (cleanupCall st) sessionId p := by
      simp only [connStep, hcall]
      rw [if_neg hsession]
    have hphase := connectPromisePhase_live (cleanupCall st) sessionId p
    rw [hstep]
    constructor
    · rw [hphase.1]
      exact hclean
    · unfold connectPromisePhase
      rw [if_pos (Or.inl (show (cleanupCall st).connectionPromise = none from rfl))]
  · intro st sessionId p q hcall hissued
    have hstep : connStep st (ConnEvent.connectSync sessionId p) =
        connectPromisePhase st sessionId p := by
      simp only [connStep, hcall]
    rw [hstep] at hissued ⊢
    unfold connectPromisePhase at hissued ⊢
    by_cases hcond : st.connectionPromise = none ∨ ¬st.storedSession = some sessionId
    · rw [if_pos hcond] at hissued ⊢
      simp only [connStep, hcall]
      unfold connectPromisePhase
      rw [if_neg ?_]
      · simp
    · rw [if_neg hcond] at hissued
      simp at hissued
  · intro st
    refine ⟨rfl, rfl, ?_⟩
    intro sessionId p
    have hst : (connStep st ConnEvent.connectFailed).1 =
        { st with connectionPromise := none, storedSession := none } := rfl
    rw [hst]
    cases hc : st.dailyCall with
    | none =>
      have hmatch : connStep
          { dailyCall := none, connectionPromise := none, storedSession := none,
            live := st.live }
          (ConnEvent.connectSync sessionId p) =
          connectPromisePhase
            { dailyCall := none, connectionPromise := none, storedSession := none,
              live := st.live } sessionId p := by
        simp only [connStep]
      rw [hmatch]
      unfold connectPromisePhase
      rw [if_pos (Or.inl (show (none : Option Nat) = none from rfl))]
    | some c =>
      have hmatch : connStep
          { dailyCall := some c, connectionPromise := none, storedSession := none,
            live := st.live }
          (ConnEvent.connectSync sessionId p) =
          connectPromisePhase
            (cleanupCall
              { dailyCall := some c, connectionPromise := none, storedSession := none,
                live := st.live }) sessionId p := by
        simp only [connStep]
        rw [if_neg (by simp)]
      rw [hmatch]
      unfold connectPromisePhase
      rw [if_pos (Or.inl (show (cleanupCall
        { dailyCall := some c, connectionPromise := none, storedSession := none,
          live := st.live }).connectionPromise = none from rfl))]

/-- Witness for `connectionLifecycle_spec`: reconnecting to the stored session
with a live call object is a no-op. -/
theorem connectionLifecycle_spec_witness :
    connStep ⟨some 1, some 1, some ("a"), [1]⟩ (ConnEvent.connectSync ("a") 2) =
      (⟨some 1, some 1, some ("a"), [1]⟩, false) :=
  connectionLifecycle_spec.2.1 ⟨some 1, some 1, some ("a"), [1]⟩ ("a") 2 rfl rfl

/-! ### Async Clip Renderer (polling loops in src/lib/avatar/lip-sync.ts) -/

/-- Replicate prediction states. -/
inductive PredictionStatus where
  | starting
  | processing
  | succeeded
  | failed
  | canceled
deriving Repr, DecidableEq

/-- The JSON string of each prediction state (used by `status.error ||
status.status` as the fallback error message). -/
def statusText : PredictionStatus → String
  | .starting => "starting"
  | .processing => "processing"
  | .succeeded => "succeeded"
  | .failed => "failed"
  | .canceled => "canceled"

/-- The `LipSyncResult` interface of lip-sync.ts. -/
structure LipSyncResult where
  requestId : String
  status : PredictionStatus
  videoUrl : Option String
  error : Option String
deriving Repr, DecidableEq

/-- Outcome of one polling loop: a returned video URL, a thrown failure
message, or the thrown timeout. -/
inductive PollOutcome where
  | videoUrl (url : String)
  | failedError (message : String)
  | timedOut
deriving Repr, DecidableEq

/-- The per-iteration decision of the polling loops: return the URL when the
job `succeeded` with a video URL, throw `status.error || status.status` when
it is `failed` or `canceled`, otherwise keep polling (`none`). -/
def pollDecision (r : LipSyncResult) : Option PollOutcome :=
  match r.status, r.videoUrl with
  | PredictionStatus.succeeded, some url => some (PollOutcome.videoUrl url)
  | PredictionStatus.failed, _ =>
    some (PollOutcome.failedError (r.error.getD (statusText PredictionStatus.failed)))
  | PredictionStatus.canceled, _ =>
    some (PollOutcome.failedError (r.error.getD (statusText PredictionStatus.canceled)))
  | _, _ => none

/-- The polling loop body of `generateLipSyncVideo`/`generateLipSyncSegment`:
iteration `i` runs at elapsed time `i * intervalMs`; the loop continues while
the elapsed time is below `timeoutMs` and the job is still in progress, and
throws the timeout error once the deadline passes. `fuel` bounds the number
of iterations (chosen so it never runs out before the deadline). -/
def pollLoopGo (statusAt : Nat → LipSyncResult) (intervalMs timeoutMs : Nat) :
    Nat → Nat → PollOutcome
  | 0, _ => .timedOut
  | fuel + 1, i =>
    if i * intervalMs < timeoutMs then
      match pollDecision (statusAt i) with
      | some outcome => outcome
      | none => pollLoopGo statusAt intervalMs timeoutMs fuel (i + 1)
    else .timedOut

/-- Run a polling loop from iteration 0 with sufficient fuel. -/
def pollForResult (statusAt : Nat → LipSyncResult) (intervalMs timeoutMs : Nat) :
    PollOutcome :=
  pollLoopGo statusAt intervalMs timeoutMs (timeoutMs / intervalMs + 1) 0

/-- `generateLipSyncVideo` sleeps 1000 ms between polls. -/
def LIP_SYNC_POLL_INTERVAL_MS : Nat := 1000

/-- Default `timeoutMs` of `generateLipSyncVideo` (2 minutes). -/
def LIP_SYNC_DEFAULT_TIMEOUT_MS : Nat := 120000

/-- `generateLipSyncSegment` sleeps 500 ms between polls. -/
def SEGMENT_POLL_INTERVAL_MS : Nat := 500

/-- Hard-coded polling deadline of `generateLipSyncSegment` (60 s). -/
def SEGMENT_TIMEOUT_MS : Nat := 60000

/-- The polling phase of `generateLipSyncVideo` from lip-sync.ts, as a
function of the job's status over poll iterations. -/
def generateLipSyncVideo (statusAt : Nat → LipSyncResult) (timeoutMs : Nat) :
    PollOutcome :=
  pollForResult statusAt LIP_SYNC_POLL_INTERVAL_MS timeoutMs

/-- The polling phase of `generateLipSyncSegment` from lip-sync.ts. -/
def generateLipSyncSegment (statusAt : Nat → LipSyncResult) : PollOutcome :=
  pollForResult statusAt SEGMENT_POLL_INTERVAL_MS SEGMENT_TIMEOUT_MS

/-- A poll result on which the loop keeps waiting: not failed, not canceled,
and not succeeded-with-a-URL. -/
def stillInProgress (r : LipSyncResult) : Prop :=
  ¬r.status = PredictionStatus.failed ∧ ¬r.status = PredictionStatus.canceled
  ∧ ¬(r.status = PredictionStatus.succeeded ∧ r.videoUrl.isSome = true)

theorem pollDecision_eq_none (r : LipSyncResult) :
    pollDecision r = none ↔ stillInProgress r := by
  cases hs : r.status <;> cases hv : r.videoUrl <;>
    simp [pollDecision, stillInProgress, hs, hv]

theorem pollLoopGo_timeout (statusAt : Nat → LipSyncResult)
    (intervalMs timeoutMs : Nat) (hall : ∀ j, stillInProgress (statusAt j)) :
    ∀ fuel i, pollLoopGo statusAt intervalMs timeoutMs fuel i =
      PollOutcome.timedOut := by
  intro fuel
  induction fuel with
  | zero =>
    intro i
    rfl
  | succ n ih =>
    intro i
    simp only [pollLoopGo]
    split
    · rw [(pollDecision_eq_none _).mpr (hall i)]
      exact ih (i + 1)
    · rfl

theorem pollLoopGo_decides (statusAt : Nat → LipSyncResult)
    (intervalMs timeoutMs i : Nat) (outcome : PollOutcome)
    (htime : i * intervalMs < timeoutMs)
    (hdec : pollDecision (statusAt i) = some outcome)
    (hbefore : ∀ j, j < i → stillInProgress (statusAt j)) :
    ∀ fuel k, k ≤ i → i < k + fuel →
      pollLoopGo statusAt intervalMs timeoutMs fuel k = outcome := by
  intro fuel
  induction fuel with
  | zero =>
    intro k hk hlt
    omega
  | succ n ih =>
    intro k hk hlt
    simp only [pollLoopGo]
    by_cases hik : k = i
    · subst hik
      rw [if_pos htime, hdec]
    · have hklt : k < i := lt_of_le_of_ne hk hik
      have hktime : k * intervalMs < timeoutMs :=
        lt_of_le_of_lt (Nat.mul_le_mul_right intervalMs (le_of_lt hklt)) htime
      rw [if_pos hktime, (pollDecision_eq_none _).mpr (hbefore k hklt)]
      exact ih (k + 1) hklt (by omega)

theorem pollForResult_decides (statusAt : Nat → LipSyncResult)
    (intervalMs timeoutMs i : Nat) (outcome : PollOutcome)
    (hpos : 0 < intervalMs) (htime : i * intervalMs < timeoutMs)
    (hdec : pollDecision (statusAt i) = some outcome)
    (hbefore : ∀ j, j < i → stillInProgress (statusAt j)) :
    pollForResult statusAt intervalMs timeoutMs = outcome := by
  unfold pollForResult
  apply pollLoopGo_decides statusAt intervalMs timeoutMs i outcome htime hdec hbefore
    (timeoutMs / intervalMs + 1) 0 (Nat.zero_le i)
  have hle : i ≤ timeoutMs / intervalMs :=
    (Nat.le_div_iff_mul_le hpos).mpr (le_of_lt htime)
  omega

/-- Claim C5: the polling loop returns the video URL when the job reaches
`succeeded` (with a URL) before the deadline, throws a failure carrying the
provider's error message when the job reports `failed` or `canceled`, and
throws the timeout error when the job is still in progress for the whole
window; `generateLipSyncVideo` polls every 1000 ms with default timeout
120000 ms and `generateLipSyncSegment` polls every 500 ms with timeout
60000 ms — both poll intervals are at least 500 ms. -/
theorem lipSyncPolling_spec :
    (∀ statusAt intervalMs timeoutMs i url, 0 < intervalMs →
      i * intervalMs < timeoutMs →
      (statusAt i).status = PredictionStatus.succeeded →
      (statusAt i).videoUrl = some url →
      (∀ j, j < i → stillInProgress (statusAt j)) →
      pollForResult statusAt intervalMs timeoutMs = PollOutcome.videoUrl url)
  ∧ (∀ statusAt intervalMs timeoutMs i e, 0 < intervalMs →
      i * intervalMs < timeoutMs →
      ((statusAt i).status = PredictionStatus.failed ∨
        (statusAt i).status = PredictionStatus.canceled) →
      (statusAt i).error = some e →
      (∀ j, j < i → stillInProgress (statusAt j)) →
      pollForResult statusAt intervalMs timeoutMs = PollOutcome.failedError e)
  ∧ (∀ statusAt intervalMs timeoutMs, (∀ j, stillInProgress (statusAt j)) →
      pollForResult statusAt intervalMs timeoutMs = PollOutcome.timedOut)
  ∧ (∀ statusAt timeoutMs, generateLipSyncVideo statusAt timeoutMs =
      pollForResult statusAt LIP_SYNC_POLL_INTERVAL_MS timeoutMs)
  ∧ (∀ statusAt, generateLipSyncSegment statusAt =
      pollForResult statusAt SEGMENT_POLL_INTERVAL_MS SEGMENT_TIMEOUT_MS)
  ∧ LIP_SYNC_DEFAULT_TIMEOUT_MS = 120000
  ∧ SEGMENT_TIMEOUT_MS = 60000
  ∧ 500 ≤ LIP_SYNC_POLL_INTERVAL_MS
  ∧ 500 ≤ SEGMENT_POLL_INTERVAL_MS := by
  refine ⟨?_, ?_, ?_, fun statusAt timeoutMs => rfl, fun statusAt => rfl,
    rfl, rfl, by decide, by decide⟩
  · intro statusAt intervalMs timeoutMs i url hpos htime hs hv hbefore
    apply pollForResult_decides statusAt intervalMs timeoutMs i _ hpos htime ?_ hbefore
    simp [pollDecision, hs, hv]
  · intro statusAt intervalMs timeoutMs i e hpos htime hor herr hbefore
    apply pollForResult_decides statusAt intervalMs timeoutMs i _ hpos htime ?_ hbefore
    rcases hor with h | h <;> simp [pollDecision, h, herr]
  · intro statusAt intervalMs timeoutMs hall
    unfold pollForResult
    exact pollLoopGo_timeout statusAt intervalMs timeoutMs hall _ 0

/-- Witness for `lipSyncPolling_spec`: a job that is processing twice and then
succeeds yields its video URL. -/
theorem lipSyncPolling_spec_witness :
    pollForResult
        (fun j => if j < 2 then ⟨"id", PredictionStatus.processing, none, none⟩
          else ⟨"id", PredictionStatus.succeeded, some ("video.mp4"), none⟩)
        1000 120000 =
      PollOutcome.videoUrl ("video.mp4") :=
  lipSyncPolling_spec.1
    (fun j => if j < 2 then ⟨"id", PredictionStatus.processing, none, none⟩
      else ⟨"id", PredictionStatus.succeeded, some ("video.mp4"), none⟩)
    1000 120000 2 ("video.mp4") (by decide) (by decide) (by decide) (by decide)
    (by
      intro j hj
      simp only [if_pos hj]
      exact ⟨by decide, by decide, by decide⟩)

/-! ### Audio buffer (class AudioBuffer in src/lib/avatar/streaming.ts) -/

/-- `VAD_SETTINGS.sampleRate` from stt.ts, used for the duration estimate. -/
def VAD_SAMPLE_RATE : Nat := 16000

/-- The `AudioChunk` interface of streaming.ts; `data` is the chunk's bytes. -/
structure AudioChunk where
  data : List Nat
  timestamp : Nat
  isFinal : Bool
deriving Repr, DecidableEq

/-- The private fields of the `AudioBuffer` class. -/
structure AudioBufferState where
  chunks : List AudioChunk
  totalDuration : ℚ
deriving Repr, DecidableEq

/-- A freshly constructed `AudioBuffer`. -/
def emptyAudioBuffer : AudioBufferState := ⟨[], 0⟩

/-- `add(chunk)`: push the chunk and add its estimated duration
(`byteLength / (sampleRate * 2)`). -/
def addChunk (st : AudioBufferState) (chunk : AudioChunk) : AudioBufferState :=
  { chunks := st.chunks ++ [chunk],
    totalDuration := st.totalDuration +
      (chunk.data.length : ℚ) / ((VAD_SAMPLE_RATE : ℚ) * 2) }

/-- `getBuffer()`: concatenate all chunk bytes in insertion order. -/
def getBuffer (st : AudioBufferState) : List Nat :=
  (st.chunks.map AudioChunk.data).flatten

/-- `clear()`: drop all chunks and reset the duration. -/
def clearBuffer (_st : AudioBufferState) : AudioBufferState := ⟨[], 0⟩

/-- `hasData`: whether at least one chunk is buffered. -/
def hasData (st : AudioBufferState) : Bool := decide (st.chunks.length > 0)

/-- `duration`: the accumulated duration estimate. -/
def duration (st : AudioBufferState) : ℚ := st.totalDuration

/-- The operations a caller can perform on the buffer. -/
inductive AudioOp where
  | add (chunk : AudioChunk)
  | clear
deriving Repr, DecidableEq

def audioStep (st : AudioBufferState) : AudioOp → AudioBufferState
  | .add chunk => addChunk st chunk
  | .clear => clearBuffer st

/-- Run a sequence of buffer operations on a fresh buffer. -/
def runAudioOps (ops : List AudioOp) : AudioBufferState :=
  ops.foldl audioStep emptyAudioBuffer

/-- The chunks added since the most recent `clear` (all adds when no clear
occurred), in order. -/
def chunksSinceLastClear (ops : List AudioOp) : List AudioChunk :=
  ops.foldl
    (fun acc op => match op with | AudioOp.add c => acc ++ [c] | AudioOp.clear => [])
    []

theorem runAudioOps_chunks (ops : List AudioOp) :
    (runAudioOps ops).chunks = chunksSinceLastClear ops := by
  suffices hgen : ∀ st : AudioBufferState,
      (ops.foldl audioStep st).chunks =
        ops.foldl
          (fun acc op =>
            match op with | AudioOp.add c => acc ++ [c] | AudioOp.clear => [])
          st.chunks by
    exact hgen emptyAudioBuffer
  induction ops with
  | nil =>
    intro st
    rfl
  | cons op rest ih =>
    intro st
    cases op with
    | add c =>
      have hstep : (audioStep st (AudioOp.add c)).chunks = st.chunks ++ [c] := rfl
      show (rest.foldl audioStep (audioStep st (AudioOp.add c))).chunks = _
      rw [ih (audioStep st (AudioOp.add c)), hstep]
      rfl
    | clear =>
      show (rest.foldl audioStep (audioStep st AudioOp.clear)).chunks = _
      rw [ih (audioStep st AudioOp.clear)]
      rfl

theorem chunksSinceLastClear_adds (cs : List AudioChunk) :
    chunksSinceLastClear (cs.map AudioOp.add) = cs := by
  suffices hgen : ∀ acc : List AudioChunk,
      (cs.map AudioOp.add).foldl
        (fun acc op =>
          match op with | AudioOp.add c => acc ++ [c] | AudioOp.clear => [])
        acc = acc ++ cs by
    simpa using hgen []
  induction cs with
  | nil =>
    intro acc
    simp
  | cons c rest ih =>
    intro acc
    simp only [List.map_cons, List.foldl_cons, ih (acc ++ [c]), List.append_assoc,
      List.singleton_append]

/-- Claim C10: `getBuffer` returns the byte-wise concatenation, in insertion
order, of the chunks added since the last clear (so for a pure sequence of
adds, exactly the added chunks' data); `hasData` is true exactly when at
least one chunk was added since the last clear; and after `clear()` the
duration is 0 and `hasData` is false. -/
theorem audioBuffer_spec :
    (∀ ops, getBuffer (runAudioOps ops) =
        ((chunksSinceLastClear ops).map AudioChunk.data).flatten
      ∧ (hasData (runAudioOps ops) = true ↔ ¬chunksSinceLastClear ops = []))
  ∧ (∀ cs : List AudioChunk,
      getBuffer (runAudioOps (cs.map AudioOp.add)) =
        (cs.map AudioChunk.data).flatten)
  ∧ (∀ st, duration (clearBuffer st) = 0 ∧ hasData (clearBuffer st) = false) := by
  refine ⟨?_, ?_, fun st => ⟨rfl, rfl⟩⟩
  · intro ops
    constructor
    · unfold getBuffer
      rw [runAudioOps_chunks]
    · unfold hasData
      rw [runAudioOps_chunks]
      simp [List.length_pos]
  · intro cs
    unfold getBuffer
    rw [runAudioOps_chunks, chunksSinceLastClear_adds]

/-- Witness for `audioBuffer_spec`: one added chunk makes `hasData` true. -/
theorem audioBuffer_spec_witness :
    hasData (runAudioOps [AudioOp.add ⟨[1, 2], 0, false⟩]) = true :=
  (audioBuffer_spec.1 [AudioOp.add ⟨[1, 2], 0, false⟩]).2.mpr (by decide)

end Avilon
